import Mathlib

/-!
Verification development for the vercel-agno-integration repository.

The development shallowly embeds, in Lean, the parts of the repository that
the checked properties talk about:

* `scripts/generate_frontend_tools_python.js` (the schema translator that
  reads `common/frontend_tools.ts` and writes `common/frontend_tools.py`);
* `common/frontend_tools.ts` (the authoring tool catalogue);
* the tool-invocation dispatcher of `ui/app/page.tsx` (the tool-info-card
  update effect and the pending-invocation rendering);
* `ui/app/components/ConfirmationModal.tsx` (button-click handling);
* `ui/lib/image-utils.ts` (`validateImageUrl`).

JavaScript string/regex extraction steps of the generator are embedded at
the level of their extraction results: a `TsSource` value records exactly
what each regex of the generator captures from the authoring file, and the
concrete value `frontendToolsTs` below records, field by field, what those
regexes capture on the repository's actual `common/frontend_tools.ts`
(the trace is documented at each field).  External collaborators (the
WHATWG URL constructor, the image preloader, the chat transport's
`addToolResult`) are modelled as explicit parameters or documented
transition functions.
-/

namespace VercelAgno

/-- A JSON-Schema-shaped parameter tree node, as authored in
`common/frontend_tools.ts` and as hardcoded in the generator script:
`kinds` is the value of `"type"` (one element, or several for a union type
such as `["string", "boolean", "number"]`), `enumVals` the value of
`"enum"` (empty when absent), `required` the value of `"required"` (empty
when absent), `props` the `"properties"` entries in authoring order, and
`items` the `"items"` schema of an array node.  Description and format
strings inside parameter trees are omitted: no checked property compares
them. -/
inductive SchemaTree where
  | node (kinds : List String) (enumVals : List String) (required : List String)
      (props : List (String × SchemaTree)) (items : Option SchemaTree)
deriving Repr

/-- The `"properties"` keys at the root of a parameter tree. -/
def rootPropKeys : SchemaTree → List String
  | .node _ _ _ ps _ => ps.map Prod.fst

/-- The `"required"` list at the root of a parameter tree. -/
def rootRequired : SchemaTree → List String
  | .node _ _ r _ _ => r

/-- One entry of the `FrontendToolName` enum: `NAME = "value"`. -/
structure EnumEntry where
  name : String
  value : String
deriving Repr, DecidableEq

/-- What the generator's regexes extract for one `function getXxx() {...}`
definition of the authoring file: the function's name, the first
`FrontendToolName.<NAME>` occurrence in the regex-truncated body
(`enumMatch`), and the first `description: "..."` occurrence (`descMatch`).
`none` records a failed regex match. -/
structure FuncDef where
  fname : String
  enumRef : Option String
  descr : Option String
deriving Repr, DecidableEq

/-- The data the generator script extracts from `common/frontend_tools.ts`:
the `FrontendToolName` enum entries in declaration order, the call
expressions listed in `getAllFrontendToolSchemas` in order (after
`.split(',')` and `.trim()`), and the located function definitions. -/
structure TsSource where
  enumEntries : List EnumEntry
  getAllCalls : List String
  funcDefs : List FuncDef

/-- Characters admitted by the generator's call-name regex class
`[A-Za-z_]`. -/
def isCallNameChar (c : Char) : Bool :=
  c.isAlpha || c = '_'

/-- The generator's `call.match(/^(get[A-Za-z_]+)\(\)$/)`: the call text
must be `get`, then at least one letter or underscore, then exactly `()`;
the captured function name includes the `get` prefix. -/
def parseCallName (call : String) : Option String :=
  match call.data with
  | 'g' :: 'e' :: 't' :: rest =>
    if 3 ≤ rest.length then
      let mid := rest.take (rest.length - 2)
      let tl := rest.drop (rest.length - 2)
      if tl = ['(', ')'] && mid.all isCallNameChar then
        some (String.mk ('g' :: 'e' :: 't' :: mid))
      else none
    else none
  | _ => none

/-- The hardcoded `ASK_USER_CONFIRMATION` parameter block of the generator
script (its first `if` branch). -/
def askUserConfirmationHardcoded : SchemaTree :=
  .node ["object"] [] ["question_text"]
    [("title", .node ["string"] [] [] [] none),
     ("question_text", .node ["string"] [] [] [] none),
     ("confirmation_context", .node ["string"] [] [] [] none),
     ("buttons", .node ["array"] [] [] []
       (some (.node ["object"] [] ["label", "value"]
         [("label", .node ["string"] [] [] [] none),
          ("value", .node ["string", "boolean", "number"] [] [] [] none),
          ("style", .node ["string"] ["primary", "secondary", "danger"] [] [] none)]
         none)))]
    none

/-- The hardcoded `DISPLAY_PRODUCT_CARD` parameter block of the generator
script: note that it has no `product_description` property and requires
`product_id`. -/
def displayProductCardHardcoded : SchemaTree :=
  .node ["object"] [] ["product_id", "product_name", "price"]
    [("product_id", .node ["string"] [] [] [] none),
     ("product_name", .node ["string"] [] [] [] none),
     ("price", .node ["number"] [] [] [] none),
     ("image_url", .node ["string"] [] [] [] none)]
    none

/-- The hardcoded `DISPLAY_TOOL_INFO` parameter block of the generator
script. -/
def displayToolInfoHardcoded : SchemaTree :=
  .node ["object"] [] ["tool_name", "tool_description", "tool_status"]
    [("tool_name", .node ["string"] [] [] [] none),
     ("tool_description", .node ["string"] [] [] [] none),
     ("tool_id", .node ["string"] [] [] [] none),
     ("tool_parameters", .node ["object"] [] [] [] none),
     ("tool_status", .node ["string"] ["pending", "executing", "completed", "failed"] [] [] none),
     ("tool_output", .node ["object"] [] [] [] none),
     ("tool_error", .node ["string"] [] [] [] none)]
    none

/-- The hardcoded `CHANGE_BACKGROUND_COLOR` parameter block of the
generator script. -/
def changeBackgroundColorHardcoded : SchemaTree :=
  .node ["object"] [] ["colorHexCode"]
    [("colorHexCode", .node ["string"] [] [] [] none)]
    none

/-- The generator's `if/else if` chain that selects a hardcoded parameter
block by the extracted enum name (`parameters` stays `null`, i.e. `none`,
for every other name, in particular for the authoring file's own
`ASK_USER_QUESTION_CONFIRMATION_APPROVAL_INPUT`). -/
def hardcodedParameters (enumName : String) : Option SchemaTree :=
  if enumName = "ASK_USER_CONFIRMATION" then some askUserConfirmationHardcoded
  else if enumName = "DISPLAY_PRODUCT_CARD" then some displayProductCardHardcoded
  else if enumName = "DISPLAY_TOOL_INFO" then some displayToolInfoHardcoded
  else if enumName = "CHANGE_BACKGROUND_COLOR" then some changeBackgroundColorHardcoded
  else none

/-- One element of the generator's `schemaFunctions` array. -/
structure SchemaFunc where
  funcName : String
  enumName : String
  descr : String
  parameters : SchemaTree
deriving Repr

/-- `funcDefRegex.exec(tsContent)`: the first function definition with the
given name. -/
def findFuncDef (ts : TsSource) (n : String) : Option FuncDef :=
  ts.funcDefs.find? (fun f => f.fname = n)

/-- The body of the generator's per-call loop: parse the call name, locate
the function definition, extract `enumMatch` and `descMatch`, select the
hardcoded parameter block; the call contributes a `schemaFunctions` entry
only when every step succeeds (each failure is a silent `continue` /
skipped `push` in the script). -/
def resolveCall (ts : TsSource) (call : String) : Option SchemaFunc := do
  let fn ← parseCallName call
  let fd ← findFuncDef ts fn
  let en ← fd.enumRef
  let d ← fd.descr
  let ps ← hardcodedParameters en
  pure ⟨fn, en, d, ps⟩

/-- The generator's `for (const call of functionCalls)` loop, pushing an
entry per successfully resolved call, in call order. -/
def collectSchemaFuncs (ts : TsSource) : List String → List SchemaFunc
  | [] => []
  | c :: rest =>
    match resolveCall ts c with
    | some f => f :: collectSchemaFuncs ts rest
    | none => collectSchemaFuncs ts rest

/-- The generator's `schemaFunctions` array for a given authoring source. -/
def schemaFunctionsOf (ts : TsSource) : List SchemaFunc :=
  collectSchemaFuncs ts ts.getAllCalls

/-- `str.toLowerCase()` on the ASCII identifiers the generator handles. -/
def toLowerStr (s : String) : String :=
  String.mk (s.data.map Char.toLower)

/-- Character-level `endsWith` (JavaScript string suffix test). -/
def strEndsWith (s suffix : String) : Bool :=
  List.isSuffixOf suffix.data s.data

/-- Character-level `startsWith` (JavaScript string prefix test). -/
def strStartsWith (s pre : String) : Bool :=
  List.isPrefixOf pre.data s.data

/-- Character-level drop of the first `n` characters. -/
def strDrop (n : Nat) (s : String) : String :=
  String.mk (s.data.drop n)

/-- Character-level drop of the last `n` characters. -/
def strDropRight (n : Nat) (s : String) : String :=
  String.mk (s.data.take (s.data.length - n))

/-- The generator's `replace(/([a-z])([A-Z])/g, '$1_$2')` camel-case
boundary pass over a character list. -/
def camelSnakeChars : List Char → List Char
  | a :: b :: rest =>
    if a.isLower && b.isUpper then a :: '_' :: camelSnakeChars (b :: rest)
    else a :: camelSnakeChars (b :: rest)
  | l => l

/-- Camel case to lower snake case, as the generator computes it. -/
def camelToSnakeLower (s : String) : String :=
  toLowerStr (String.mk (camelSnakeChars s.data))

/-- The generator's `snakeName` for a schema function: for a name ending in
`Schema`, `substring(3, length - 6)` converted to snake case; otherwise the
lower-cased enum name. -/
def snakeNameOf (f : SchemaFunc) : String :=
  if strEndsWith f.funcName "Schema" then
    camelToSnakeLower (strDropRight 6 (strDrop 3 f.funcName))
  else toLowerStr f.enumName

/-- One generated Python `def get_<snake>_schema()` unit. -/
structure PyDef where
  defName : String
  enumName : String
  descr : String
  parameters : SchemaTree
deriving Repr

/-- The generated Python artifact: the emitted `FrontendToolName` enum
entries, the per-tool schema functions, and the call list inside
`get_all_frontend_tool_schemas` (`get_<enumName.toLowerCase()>_schema()`,
in `schemaFunctions` order).  The emitted text is a fixed rendering of
this structure. -/
structure PyModule where
  enumEntries : List EnumEntry
  schemaDefs : List PyDef
  aggregateCalls : List String
deriving Repr

/-- `generatePythonCode` as a function of the extracted source data. -/
def generatePythonArtifact (ts : TsSource) : PyModule :=
  let fs := schemaFunctionsOf ts
  { enumEntries := ts.enumEntries
    schemaDefs := fs.map (fun f =>
      ⟨"get_" ++ snakeNameOf f ++ "_schema", f.enumName, f.descr, f.parameters⟩)
    aggregateCalls := fs.map (fun f => "get_" ++ toLowerStr f.enumName ++ "_schema()") }

/-- The tool id a generated schema entry carries: the generated python
returns `"name": FrontendToolName.<enumName>`, which resolves to the
enum entry's string value. -/
def resolveEnumValue (ts : TsSource) (enumName : String) : Option String :=
  (ts.enumEntries.find? (fun e => e.name = enumName)).map EnumEntry.value

/-- One entry of the generated catalogue as the backend consumes it. -/
structure PyCatEntry where
  id : Option String
  descr : String
  parameters : SchemaTree
deriving Repr

/-- The catalogue the generated `get_all_frontend_tool_schemas` returns,
in its returned order. -/
def pythonCatalogue (ts : TsSource) : List PyCatEntry :=
  (schemaFunctionsOf ts).map (fun f => ⟨resolveEnumValue ts f.enumName, f.descr, f.parameters⟩)

/-- The canonical ordered tool-id list declared by the authoring file's
`FrontendToolName` enum. -/
def declaredToolIds (ts : TsSource) : List String :=
  ts.enumEntries.map EnumEntry.value

/-- The state the generator script acts on: the (already read) authoring
source and the generated target artifact, `none` before any write.  The
script unconditionally runs `generatePythonCode()` and then
`fs.writeFileSync` of the result. -/
structure GenState where
  tsSource : TsSource
  artifact : Option PyModule

/-- One run of `scripts/generate_frontend_tools_python.js`. -/
def runGenerator (s : GenState) : GenState :=
  { s with artifact := some (generatePythonArtifact s.tsSource) }

/-- The `FrontendToolName` enum entries of the repository's actual
`common/frontend_tools.ts`, as the generator's line regex
`\s*([A-Z_]+)\s*=\s*"([^"]+)"` captures them. -/
def part3EnumEntries : List EnumEntry :=
  [⟨"ASK_USER_QUESTION_CONFIRMATION_APPROVAL_INPUT", "ask_user_question_confirmation_approval_input"⟩,
   ⟨"DISPLAY_PRODUCT_CARD", "display_product_card"⟩,
   ⟨"DISPLAY_TOOL_INFO", "display_tool_info"⟩,
   ⟨"CHANGE_BACKGROUND_COLOR", "change_background_color"⟩]

/-- The call expressions inside the actual `getAllFrontendToolSchemas`,
after the generator's `.trim().split(',')` and per-call `.trim()`. -/
def part3GetAllCalls : List String :=
  ["getAskUserConfirmationSchema()",
   "getDisplayProductCardSchema()",
   "getDisplayToolInfoSchema()",
   "getCHANGE_BACKGROUND_COLORSchema()"]

/-- The four schema-function definitions of the actual
`common/frontend_tools.ts` as the generator's regexes read them.  The body
regex `function\s+NAME\(\)[^{]*{([\s\S]*?)}` stops at the first `}` inside
each body (the closing brace of the first property), but for each of the
four functions the first `FrontendToolName.<NAME>` occurrence and the first
`description: "..."` occurrence both precede that brace, so `enumRef` is
the enum name referenced by the function's `name:` field and `descr` is the
tool's description string. -/
def part3FuncDefs : List FuncDef :=
  [⟨"getAskUserConfirmationSchema",
    some "ASK_USER_QUESTION_CONFIRMATION_APPROVAL_INPUT",
    some "Use this tool for questions, confirmation or approval kind of interaction with user in UI. The UI will shows a modal with customizable buttons for user to select. If asking question, always have 'Others' option in addition to applicable ones."⟩,
   ⟨"getDisplayProductCardSchema",
    some "DISPLAY_PRODUCT_CARD",
    some "Use this tool to show the product details in UI whenever user is asking about any product or want to see product details."⟩,
   ⟨"getDisplayToolInfoSchema",
    some "DISPLAY_TOOL_INFO",
    some "Displays detailed information about backend tool calls in the UI, including execution status and results. Shows a spinner for in-progress tools and allows expanding completed tools to view details."⟩,
   ⟨"getCHANGE_BACKGROUND_COLORSchema",
    some "CHANGE_BACKGROUND_COLOR",
    some "This will set / change the background color in frontend to the given hex color code like #FFC0CB"⟩]

/-- The repository's actual authoring catalogue source, as extracted by the
generator's regexes. -/
def frontendToolsTs : TsSource :=
  ⟨part3EnumEntries, part3GetAllCalls, part3FuncDefs⟩

/-- The authoring `parameters` tree of `getDisplayProductCardSchema` in
`common/frontend_tools.ts`: five properties including
`product_description`, and `required` equal to
`["product_name", "price"]`. -/
def authDisplayProductCardParams : SchemaTree :=
  .node ["object"] [] ["product_name", "price"]
    [("product_id", .node ["string"] [] [] [] none),
     ("product_name", .node ["string"] [] [] [] none),
     ("product_description", .node ["string"] [] [] [] none),
     ("price", .node ["number"] [] [] [] none),
     ("image_url", .node ["string"] [] [] [] none)]
    none

/-- An authoring source whose identifier list declares a tool whose
referenced enum name matches none of the generator's hardcoded parameter
branches (so no parameter block can be located for it). -/
def orphanTs : TsSource :=
  ⟨[⟨"FOO", "foo"⟩],
   ["getFooSchema()"],
   [⟨"getFooSchema", some "FOO", some "a demo tool"⟩]⟩

/-- An authoring source whose enum declares the tools in the opposite order
of the `getAllFrontendToolSchemas` call list; every call resolves to a
hardcoded schema. -/
def reorderedTs : TsSource :=
  ⟨[⟨"DISPLAY_TOOL_INFO", "display_tool_info"⟩,
    ⟨"DISPLAY_PRODUCT_CARD", "display_product_card"⟩],
   ["getDisplayProductCardSchema()", "getDisplayToolInfoSchema()"],
   [⟨"getDisplayProductCardSchema", some "DISPLAY_PRODUCT_CARD", some "product card tool"⟩,
    ⟨"getDisplayToolInfoSchema", some "DISPLAY_TOOL_INFO", some "tool info tool"⟩]⟩

/-!
Client-side dispatcher (`ui/app/page.tsx`): the `useEffect` that folds the
message stream into the `toolInfoCards` state, and the pending-invocation
rendering.  The argument / result payload of an invocation is kept generic
in a type `α` (the page passes it through opaquely).
-/

/-- The lifecycle state of a tool invocation as delivered by the chat
transport (`ToolInvocationData.state` in `page.tsx`). -/
inductive InvState where
  | call
  | result
  | partialCall
deriving DecidableEq, Repr

/-- A tool invocation update delivered with an assistant message.  `result`
is the payload carried when `state = result`. -/
structure Invocation (α : Type) where
  toolCallId : String
  toolName : String
  state : InvState
  args : α
  result : Option α
deriving DecidableEq, Repr

/-- The `tool_status` string the page derives from an invocation state:
`'call' → executing`, `'result' → completed`, `'partial-call' → pending`
(the source's final `: 'failed'` alternative is unreachable for the three
declared states). -/
def toolStatusOf : InvState → String
  | .call => "executing"
  | .result => "completed"
  | .partialCall => "pending"

/-- One element of the page's `toolInfoCards` state, with the exact fields
the page constructs. -/
structure ToolCard (α : Type) where
  id : String
  tool_name : String
  tool_description : String
  tool_parameters : α
  tool_status : String
  tool_output : Option α
  tool_id : String
deriving DecidableEq, Repr

/-- The card the page builds from one invocation update (both the
`parts`-based and the legacy branch build this same object). -/
def toToolCard {α : Type} (inv : Invocation α) : ToolCard α :=
  { id := inv.toolCallId
    tool_name := inv.toolName
    tool_description := inv.toolName ++ " tool call"
    tool_parameters := inv.args
    tool_status := toolStatusOf inv.state
    tool_output := if inv.state = .result then inv.result else none
    tool_id := inv.toolCallId }

/-- One part of a chat message: text, or a tool-invocation part. -/
inductive MsgPart (α : Type) where
  | text (s : String)
  | toolInv (inv : Invocation α)
deriving DecidableEq, Repr

/-- A chat message as the page consumes it: a role string, the `parts`
array, and the deprecated `toolInvocations` array the page falls back
to. -/
structure Msg (α : Type) where
  role : String
  parts : List (MsgPart α)
  legacyToolInvocations : List (Invocation α)
deriving DecidableEq, Repr

/-- The tool invocations among a message's `parts`. -/
def partInvocations {α : Type} (m : Msg α) : List (Invocation α) :=
  m.parts.filterMap (fun p =>
    match p with
    | .toolInv i => some i
    | .text _ => none)

/-- The page's `allToolInvocations` batch: over every assistant message
with tool invocations (in `parts`, or failing that in the deprecated
array), the cards built from its invocations, in message order. -/
def extractToolBatch {α : Type} (msgs : List (Msg α)) : List (ToolCard α) :=
  (msgs.filter (fun m =>
      m.role == "assistant" &&
        (!(partInvocations m).isEmpty || !m.legacyToolInvocations.isEmpty))).flatMap
    (fun m =>
      if (partInvocations m).isEmpty then m.legacyToolInvocations.map toToolCard
      else (partInvocations m).map toToolCard)

/-- The page's `setToolInfoCards` functional update: cards whose `id`
already exists are replaced by the first batch entry with that `id`
(`allToolInvocations.find`), and batch entries with an unseen `id` are
appended (`uniqueNewTools`). -/
def applyBatch {α : Type} [DecidableEq α] (batch prev : List (ToolCard α)) :
    List (ToolCard α) :=
  let existingIds := prev.map ToolCard.id
  let uniqueNewTools := batch.filter (fun t => ¬ t.id ∈ existingIds)
  let updatedExisting := prev.map (fun card =>
    (batch.find? (fun t => t.id == card.id)).getD card)
  updatedExisting ++ uniqueNewTools

/-- One run of the page's message-processing effect over the card state:
`setToolInfoCards` is invoked only when the extracted batch is
non-empty. -/
def processMessages {α : Type} [DecidableEq α] (msgs : List (Msg α))
    (cards : List (ToolCard α)) : List (ToolCard α) :=
  let b := extractToolBatch msgs
  if b.isEmpty then cards else applyBatch b cards

/-- The page's `pendingToolInvocations`: the tool-invocation parts of the
last message, when it is an assistant message, filtered to
`state = 'call'`. -/
def pendingToolInvocations {α : Type} (msgs : List (Msg α)) : List (Invocation α) :=
  match msgs.getLast? with
  | some m =>
    if m.role = "assistant" then (partInvocations m).filter (fun i => i.state = .call)
    else []
  | none => []

/-- What the pending-invocation section renders for one invocation: a
`ConfirmationModal`, or the empty `React.Fragment` keyed by the
invocation's index. -/
inductive RenderedNode (α : Type) where
  | confirmationModal (inv : Invocation α)
  | emptyFragment (idx : Nat)
deriving DecidableEq, Repr

/-- The page's per-invocation render decision: a modal exactly for
`toolName = 'ask_user_confirmation'`, an empty fragment otherwise. -/
def renderPendingInvocation {α : Type} (idx : Nat) (inv : Invocation α) : RenderedNode α :=
  if inv.toolName = "ask_user_confirmation" then .confirmationModal inv
  else .emptyFragment idx

/-- The rendered pending-invocation section: one node per pending
invocation, in order. -/
def renderPendingList {α : Type} (invs : List (Invocation α)) : List (RenderedNode α) :=
  invs.enum.map (fun p => renderPendingInvocation p.1 p.2)

/-- The tool ids of the loaded frontend catalogue (the `FrontendToolName`
values of `common/frontend_tools.ts`). -/
def catalogueToolNames : List String :=
  declaredToolIds frontendToolsTs

/-!
Confirmation flow: `ConfirmationModal.handleButtonClick` together with the
page's `handleConfirm` / `handleCancel`, both of which call the
transport's `addToolResult` with `{toolCallId, result: {confirmed: value}}`.
-/

/-- A button's literal value (`string | boolean | number`); numbers are
modelled as integers, which the compared literals of the catalogue are. -/
inductive LitValue where
  | str (s : String)
  | boolean (b : Bool)
  | num (n : Int)
deriving DecidableEq, Repr

/-- The `{confirmed: value}` result object the page sends. -/
structure ConfirmedResult where
  confirmed : LitValue
deriving DecidableEq, Repr

/-- One `addToolResult` call: `{toolCallId, result}`. -/
structure SentResult where
  callId : String
  result : ConfirmedResult
deriving DecidableEq, Repr

/-- Which of the modal's two callbacks a click takes. -/
inductive ClickRoute where
  | confirmRoute
  | cancelRoute
deriving DecidableEq, Repr

/-- `ConfirmationModal.handleButtonClick`: `value === false` (the strict
boolean comparison) routes to `onCancel`, every other literal to
`onConfirm`; both page handlers then issue exactly one `addToolResult`
with `{toolCallId, result: {confirmed: value}}`. -/
def handleButtonClick (callId : String) (v : LitValue) : ClickRoute × List SentResult :=
  if v = .boolean false then (.cancelRoute, [⟨callId, ⟨v⟩⟩])
  else (.confirmRoute, [⟨callId, ⟨v⟩⟩])

/-- Modelled from the spec: the external chat transport's `addToolResult`
(the `@ai-sdk/react` library, outside this repository) marks the
invocation with the given `callId` as resolved — every matching invocation
update moves to `state = result` carrying the sent payload (spec section 3:
updates are replacements keyed by `callId`). -/
def applyToolResult {α : Type} [DecidableEq α] (msgs : List (Msg α)) (callId : String)
    (res : α) : List (Msg α) :=
  msgs.map (fun m =>
    { m with parts := m.parts.map (fun p =>
        match p with
        | .toolInv i =>
          if i.toolCallId = callId then
            .toolInv { i with state := .result, result := some res }
          else p
        | .text s => .text s) })

/-!
Local handlers (spec sections 4.3 and 8).  The validating handlers for the
`change_background_color` and `display_product_card` tools are not among
the repository files: only their schema declarations
(`common/frontend_tools.ts`) and their result renderers
(`ChatMessage` / `ProductCard`) are.  They are modelled from the spec
below.
-/

/-- A hexadecimal digit, the class `[A-Fa-f0-9]`. -/
def isHexDigitChar (c : Char) : Bool :=
  c.isDigit || ('a' ≤ c && c ≤ 'f') || ('A' ≤ c && c ≤ 'F')

/-- The spec's color validation regex `^#([A-Fa-f0-9]\x7b6\x7d|[A-Fa-f0-9]\x7b3\x7d)$`:
a `#`, then exactly six or exactly three hex digits. -/
def matchesHexColorRegex (s : String) : Bool :=
  match s.data with
  | '#' :: rest => (rest.length = 6 || rest.length = 3) && rest.all isHexDigitChar
  | _ => false

/-- A structured handler result `{success, error}`. -/
structure HandlerResult where
  success : Bool
  error : Option String
deriving DecidableEq, Repr

/-- Modelled from the spec: the `change_background_color` local handler
(absent from the repository files; spec sections 4.3, 7 and 8): a missing
`colorHexCode` or one not matching the hex regex yields
`{success: false, error: <message>}` and leaves the page background
unchanged; a matching code is applied.  The second component is the page
background after the call. -/
def handleChangeBackgroundColor (colorHexCode : Option String)
    (background : Option String) : HandlerResult × Option String :=
  match colorHexCode with
  | none => (⟨false, some "Missing required field: colorHexCode"⟩, background)
  | some c =>
    if matchesHexColorRegex c then (⟨true, none⟩, some c)
    else (⟨false, some "Invalid color format. Please provide a hex color code like #FFC0CB"⟩, background)

/-- Modelled from the spec: the `display_product_card` validation handler
(absent from the repository files; spec sections 4.3 and 8): missing
required fields or a non-positive price yield
`{success: false, error: <message>}` and no card; otherwise the card
`(product_name, price)` is produced.  The price is modelled as an
integer. -/
def handleDisplayProductCard (product_name : Option String) (price : Option Int) :
    HandlerResult × Option (String × Int) :=
  match product_name, price with
  | none, _ => (⟨false, some "Missing required field: product_name"⟩, none)
  | some _, none => (⟨false, some "Missing required field: price"⟩, none)
  | some n, some p =>
    if 0 < p then (⟨true, none⟩, some (n, p))
    else (⟨false, some "Price must be a positive number"⟩, none)

/-!
Image validation (`ui/lib/image-utils.ts`).  The host URL constructor and
the image preloader are external: the URL constructor is a parameter
`urlParse` returning the parsed pathname on success, and the preload
outcome is a parameter.
-/

/-- The outcome of the external `preloadImage` await: the image loaded,
it failed to load, or the await threw (the source's `catch` branch). -/
inductive LoadOutcome where
  | loaded
  | failedLoad
  | threw
deriving DecidableEq, Repr

/-- The record `validateImageUrl` resolves to. -/
structure ImgValidation where
  isValid : Bool
  isLoadable : Bool
  error : Option String
deriving DecidableEq, Repr

/-- `validImageExtensions` of `image-utils.ts`. -/
def validImageExtensions : List String :=
  [".jpg", ".jpeg", ".png", ".gif", ".webp", ".svg"]

/-- `isValidImageUrl`: the URL must parse (`new URL(url)`, modelled by
`urlParse` returning the pathname) and its lower-cased pathname must end
in one of the image extensions. -/
def isValidImageUrl (urlParse : String → Option String) (url : String) : Bool :=
  match urlParse url with
  | none => false
  | some pathname => validImageExtensions.any (fun ext => strEndsWith (toLowerStr pathname) ext)

/-- `validateImageUrl`: an empty url and an invalid url resolve
immediately; otherwise the preload outcome decides `isLoadable`, the
`catch` branch yielding `isValid = true`, `isLoadable = false`. -/
def validateImageUrl (urlParse : String → Option String) (outcome : LoadOutcome)
    (url : String) : ImgValidation :=
  if url = "" then ⟨false, false, some "No image URL provided"⟩
  else if isValidImageUrl urlParse url then
    match outcome with
    | .loaded => ⟨true, true, none⟩
    | .failedLoad => ⟨true, false, some "Image failed to load"⟩
    | .threw => ⟨true, false, some "Error validating image URL"⟩
  else ⟨false, false, some "Invalid image URL format"⟩

/-- The path part (leading slash included) of a URL remainder after its
scheme, for `demoUrlParse` below. -/
def pathnameOfRest (rest : String) : String :=
  String.mk ('/' :: (rest.data.dropWhile (fun c => c ≠ '/')).drop 1)

/-- A minimal stand-in for the host WHATWG URL constructor, used only to
evaluate witnesses: it accepts `http://` and `https://` URLs and returns
the path part after the authority. -/
def demoUrlParse (url : String) : Option String :=
  if strStartsWith url "https://" then some (pathnameOfRest (strDrop 8 url))
  else if strStartsWith url "http://" then some (pathnameOfRest (strDrop 7 url))
  else none

/-- An invocation update `{callId: "call-1", state: executing}` as a
duplicate-delivery test vector. -/
def execInv : Invocation String :=
  ⟨"call-1", "web_search", .call, "q", none⟩

/-- A pending invocation whose tool id is not a catalogue tool id. -/
def unknownInv : Invocation String :=
  ⟨"call-9", "does_not_exist", .call, "", none⟩

/-- A message stream whose last assistant message carries `unknownInv`. -/
def unknownMsgs : List (Msg String) :=
  [⟨"assistant", [.toolInv unknownInv], []⟩]

/-- A pending invocation carrying the special-cased name
`ask_user_confirmation` — a tool id that is itself absent from the loaded
catalogue. -/
def modalInv : Invocation String :=
  ⟨"call-3", "ask_user_confirmation", .call, "", none⟩

/-- A message stream whose last assistant message carries `modalInv`. -/
def modalMsgs : List (Msg String) :=
  [⟨"assistant", [.toolInv modalInv], []⟩]

/-!
Theorems.
-/

theorem collectSchemaFuncs_eq_filterMap (ts : TsSource) (l : List String) :
    collectSchemaFuncs ts l = l.filterMap (resolveCall ts) := by
  induction l with
  | nil => rfl
  | cons c rest ih =>
    cases h : resolveCall ts c <;>
      simp [collectSchemaFuncs, h, ih, List.filterMap_cons]

theorem length_filterMap_lt_of_none {α β : Type} (f : α → Option β) (l : List α)
    (a : α) (ha : a ∈ l) (hf : f a = none) :
    (l.filterMap f).length < l.length := by
  induction l with
  | nil => cases ha
  | cons x xs ih =>
    rcases List.mem_cons.mp ha with rfl | hmem
    · rw [List.filterMap_cons, hf]
      exact Nat.lt_succ_of_le (List.length_filterMap_le f xs)
    · cases h : f x with
      | none =>
        rw [List.filterMap_cons, h]
        exact Nat.lt_succ_of_lt (ih hmem)
      | some b =>
        rw [List.filterMap_cons, h]
        simpa using Nat.succ_lt_succ (ih hmem)

/-- C1: the claim (translator completeness: every declared tool id gets
exactly one generated entry with a structurally identical parameter tree)
is what the generator's own header and the authoring file's
single-source-of-truth comment promise, and the code breaks it on the
repository's own catalogue: the declared id
`ask_user_question_confirmation_approval_input` gets no generated entry at
all (the hardcoded branch still tests the stale enum name
`ASK_USER_CONFIRMATION`), and the one `display_product_card` entry carries
the stale hardcoded tree, whose root property keys lack
`product_description` and whose required set differs from the authoring
one. -/
theorem generated_catalogue_drops_declared_tool :
    "ask_user_question_confirmation_approval_input" ∈ declaredToolIds frontendToolsTs ∧
    (pythonCatalogue frontendToolsTs).map PyCatEntry.id =
      [some "display_product_card", some "display_tool_info", some "change_background_color"] ∧
    (∀ e ∈ pythonCatalogue frontendToolsTs,
      e.id ≠ some "ask_user_question_confirmation_approval_input") ∧
    ((pythonCatalogue frontendToolsTs).filter
        (fun e => e.id == some "display_product_card")).map
        (fun e => rootPropKeys e.parameters) = [rootPropKeys displayProductCardHardcoded] ∧
    rootPropKeys displayProductCardHardcoded ≠ rootPropKeys authDisplayProductCardParams ∧
    rootRequired displayProductCardHardcoded ≠ rootRequired authDisplayProductCardParams := by
  refine ⟨by decide, by decide, by decide, ?_, by decide, by decide⟩
  rfl

/-- C2 counterexample: on `orphanTs`, whose declared id `foo` has no
locatable parameter schema, the generator still writes the target artifact
(the script's unconditional `writeFileSync`) and silently drops the tool
(the generated catalogue is empty), refuting the claimed abort with no
write. -/
theorem missing_schema_artifact_still_written_cex :
    ((runGenerator ⟨orphanTs, none⟩).artifact).isSome = true ∧
    "foo" ∈ declaredToolIds orphanTs ∧
    pythonCatalogue orphanTs = [] := by
  exact ⟨rfl, by decide, rfl⟩

/-- C2 amended: when a declared tool's call has no resolvable schema, the
generator does not abort: it writes the generated artifact anyway and
silently drops that tool (the emitted schema list is strictly shorter than
the call list). -/
theorem missing_schema_tool_skipped_artifact_written (ts : TsSource) (c : String)
    (hc : c ∈ ts.getAllCalls) (hr : resolveCall ts c = none) :
    (runGenerator ⟨ts, none⟩).artifact = some (generatePythonArtifact ts) ∧
    (schemaFunctionsOf ts).length < ts.getAllCalls.length := by
  refine ⟨rfl, ?_⟩
  rw [schemaFunctionsOf, collectSchemaFuncs_eq_filterMap]
  exact length_filterMap_lt_of_none (resolveCall ts) ts.getAllCalls c hc hr

theorem missing_schema_tool_skipped_artifact_written_witness :
    ("getFooSchema()" ∈ orphanTs.getAllCalls ∧ resolveCall orphanTs "getFooSchema()" = none) ∧
    ((runGenerator ⟨orphanTs, none⟩).artifact = some (generatePythonArtifact orphanTs) ∧
      (schemaFunctionsOf orphanTs).length < orphanTs.getAllCalls.length) :=
  ⟨⟨by decide, rfl⟩,
    missing_schema_tool_skipped_artifact_written orphanTs "getFooSchema()" (by decide) rfl⟩

/-- C3: one generator run is a pure function of the authoring source (two
runs over states with the same source write equal artifacts), and running
the generator twice over an unchanged source is a no-op: the second run
recomputes and rewrites the identical artifact. -/
theorem generator_deterministic_idempotent (s s' : GenState) (h : s.tsSource = s'.tsSource) :
    runGenerator (runGenerator s) = runGenerator s ∧
    (runGenerator s).artifact = (runGenerator s').artifact := by
  constructor
  · rfl
  · simp [runGenerator, h]

theorem generator_deterministic_idempotent_witness :
    (⟨frontendToolsTs, none⟩ : GenState).tsSource =
      (⟨frontendToolsTs, some (generatePythonArtifact frontendToolsTs)⟩ : GenState).tsSource ∧
    (runGenerator (runGenerator ⟨frontendToolsTs, none⟩) = runGenerator ⟨frontendToolsTs, none⟩ ∧
      (runGenerator ⟨frontendToolsTs, none⟩).artifact =
        (runGenerator ⟨frontendToolsTs, some (generatePythonArtifact frontendToolsTs)⟩).artifact) :=
  ⟨rfl, generator_deterministic_idempotent _ _ rfl⟩

/-- C4 counterexample: on `reorderedTs` every declared id has exactly one
generated entry, yet the aggregate accessor's order is the
`getAllFrontendToolSchemas` call order, not the canonical enum identifier
order, refuting the claimed order contract. -/
theorem aggregate_order_not_enum_order_cex :
    declaredToolIds reorderedTs = ["display_tool_info", "display_product_card"] ∧
    (pythonCatalogue reorderedTs).map PyCatEntry.id =
      [some "display_product_card", some "display_tool_info"] ∧
    (pythonCatalogue reorderedTs).map PyCatEntry.id ≠
      (declaredToolIds reorderedTs).map some := by
  refine ⟨by decide, by decide, by decide⟩

/-- C4 amended: the aggregate accessor returns one entry per call of the
authoring `getAllFrontendToolSchemas` list that resolves to a hardcoded
schema, in exactly that call-list order (declared enum ids without a
resolvable call get no entry, and the enum declaration order does not
determine the output order). -/
theorem aggregate_follows_resolved_call_order (ts : TsSource) :
    schemaFunctionsOf ts = ts.getAllCalls.filterMap (resolveCall ts) ∧
    (generatePythonArtifact ts).aggregateCalls =
      (ts.getAllCalls.filterMap (resolveCall ts)).map
        (fun f => "get_" ++ toLowerStr f.enumName ++ "_schema()") ∧
    pythonCatalogue ts =
      (ts.getAllCalls.filterMap (resolveCall ts)).map
        (fun f => ⟨resolveEnumValue ts f.enumName, f.descr, f.parameters⟩) := by
  have h := collectSchemaFuncs_eq_filterMap ts ts.getAllCalls
  exact ⟨h, by rw [generatePythonArtifact]; simp [schemaFunctionsOf, h],
    by rw [pythonCatalogue, schemaFunctionsOf, h]⟩

/-- C8: an invocation of the background-color handler whose `colorHexCode`
does not match the hex color regex yields a structured
`{success: false, error: ...}` result and leaves the background
unchanged. -/
theorem invalid_hex_color_rejected (c : String) (bg : Option String)
    (h : matchesHexColorRegex c = false) :
    (handleChangeBackgroundColor (some c) bg).1.success = false ∧
    ((handleChangeBackgroundColor (some c) bg).1.error).isSome = true ∧
    (handleChangeBackgroundColor (some c) bg).2 = bg := by
  simp [handleChangeBackgroundColor, h]

theorem invalid_hex_color_rejected_witness :
    matchesHexColorRegex "not-a-color" = false ∧
    ((handleChangeBackgroundColor (some "not-a-color") none).1.success = false ∧
      ((handleChangeBackgroundColor (some "not-a-color") none).1.error).isSome = true ∧
      (handleChangeBackgroundColor (some "not-a-color") none).2 = none) :=
  ⟨by decide, invalid_hex_color_rejected "not-a-color" none (by decide)⟩

/-- C9: an invocation of the product-card handler whose price is not
positive yields exactly
`{success: false, error: "Price must be a positive number"}` and no
rendered card. -/
theorem nonpositive_price_rejected (n : String) (p : Int) (h : p ≤ 0) :
    handleDisplayProductCard (some n) (some p) =
      (⟨false, some "Price must be a positive number"⟩, none) := by
  have h' : ¬ (0 : Int) < p := not_lt.mpr h
  simp [handleDisplayProductCard, h']

theorem nonpositive_price_rejected_witness :
    (-5 : Int) ≤ 0 ∧
    handleDisplayProductCard (some "Widget") (some (-5)) =
      (⟨false, some "Price must be a positive number"⟩, none) :=
  ⟨by decide, nonpositive_price_rejected "Widget" (-5) (by decide)⟩

/-- C10: `validateImageUrl` always resolves to a structured record: the
empty url and any url the URL constructor rejects (or whose pathname lacks
an image extension) yield `isValid = false`, `isLoadable = false` with an
error message, and for every url and preload outcome the error field is
present exactly when `isLoadable` is false. -/
theorem validateImageUrl_structured_total (urlParse : String → Option String)
    (outcome : LoadOutcome) (url : String) :
    validateImageUrl urlParse outcome "" = ⟨false, false, some "No image URL provided"⟩ ∧
    (url ≠ "" → isValidImageUrl urlParse url = false →
      validateImageUrl urlParse outcome url = ⟨false, false, some "Invalid image URL format"⟩) ∧
    (((validateImageUrl urlParse outcome url).error).isSome ↔
      (validateImageUrl urlParse outcome url).isLoadable = false) := by
  refine ⟨rfl, ?_, ?_⟩
  · intro h1 h2
    simp [validateImageUrl, h1, h2]
  · unfold validateImageUrl
    by_cases h1 : url = ""
    · simp [h1]
    · by_cases h2 : isValidImageUrl urlParse url
      · cases outcome <;> simp [h1, h2]
      · simp [h1, h2]

theorem validateImageUrl_structured_total_witness :
    validateImageUrl demoUrlParse .loaded "" = ⟨false, false, some "No image URL provided"⟩ ∧
    validateImageUrl demoUrlParse .loaded "not a url" =
      ⟨false, false, some "Invalid image URL format"⟩ ∧
    (((validateImageUrl demoUrlParse .failedLoad "https://x.com/a.png").error).isSome ↔
      (validateImageUrl demoUrlParse .failedLoad "https://x.com/a.png").isLoadable = false) :=
  ⟨(validateImageUrl_structured_total demoUrlParse .loaded "x").1,
   (validateImageUrl_structured_total demoUrlParse .loaded "not a url").2.1
     (by decide) (by decide),
   (validateImageUrl_structured_total demoUrlParse .failedLoad "https://x.com/a.png").2.2⟩

theorem find_getD_id {α : Type} [DecidableEq α] (batch : List (ToolCard α)) (c : ToolCard α) :
    (((batch.find? (fun t => t.id == c.id)).getD c)).id = c.id := by
  cases h : batch.find? (fun t => t.id == c.id) with
  | none => rfl
  | some x =>
    have hx := List.find?_some h
    simpa using hx

theorem applyBatch_ids {α : Type} [DecidableEq α] (batch prev : List (ToolCard α)) :
    (applyBatch batch prev).map ToolCard.id =
      prev.map ToolCard.id ++
        (batch.filter (fun t => ¬ t.id ∈ prev.map ToolCard.id)).map ToolCard.id := by
  unfold applyBatch
  rw [List.map_append, List.map_map]
  congr 1
  apply List.map_congr_left
  intro c _
  exact find_getD_id batch c

theorem applyBatch_singleton {α : Type} [DecidableEq α] (t : ToolCard α)
    (prev : List (ToolCard α)) :
    applyBatch [t] prev =
      prev.map (fun c => if t.id = c.id then t else c) ++
        (if t.id ∈ prev.map ToolCard.id then [] else [t]) := by
  show (prev.map (fun card => ((([t].find? (fun x => x.id == card.id))).getD card)) ++
      [t].filter (fun x => decide (x.id ∉ prev.map ToolCard.id))) = _
  congr 1
  · apply List.map_congr_left
    intro c _
    by_cases h : t.id = c.id
    · simp [List.find?_cons, h]
    · have hb : (t.id == c.id) = false := by simpa using h
      simp [List.find?_cons, hb, h]
  · by_cases h : t.id ∈ prev.map ToolCard.id
    · rw [if_pos h]
      rw [List.filter_cons_of_neg, List.filter_nil]
      simp [h]
    · rw [if_neg h]
      rw [List.filter_cons_of_pos, List.filter_nil]
      simpa using h

theorem applyBatch_singleton_idem {α : Type} [DecidableEq α] (t : ToolCard α)
    (prev : List (ToolCard α)) :
    applyBatch [t] (applyBatch [t] prev) = applyBatch [t] prev := by
  have hid : ∀ c : ToolCard α, (if t.id = c.id then t else c).id = c.id := by
    intro c
    by_cases h : t.id = c.id <;> simp [h]
  have hids : ∀ l : List (ToolCard α),
      (l.map (fun c => if t.id = c.id then t else c)).map ToolCard.id = l.map ToolCard.id := by
    intro l
    rw [List.map_map]
    apply List.map_congr_left
    intro c _
    exact hid c
  by_cases h : t.id ∈ prev.map ToolCard.id
  · rw [applyBatch_singleton t prev, if_pos h]
    rw [applyBatch_singleton]
    have hmem : t.id ∈
        ((prev.map (fun c : ToolCard α => if t.id = c.id then t else c) ++ []).map ToolCard.id) := by
      rw [List.append_nil, hids]
      exact h
    rw [if_pos hmem]
    rw [List.append_nil, List.append_nil, List.map_map]
    apply List.map_congr_left
    intro c _
    by_cases hc : t.id = c.id <;> simp [hc]
  · rw [applyBatch_singleton t prev, if_neg h]
    have hprev : prev.map (fun c : ToolCard α => if t.id = c.id then t else c) = prev := by
      have hpt : ∀ c ∈ prev, (if t.id = c.id then t else c) = c := by
        intro c hc
        have hne : t.id ≠ c.id := by
          intro he
          exact h (he ▸ List.mem_map_of_mem ToolCard.id hc)
        simp [hne]
      calc prev.map (fun c : ToolCard α => if t.id = c.id then t else c)
          = prev.map id := List.map_congr_left hpt
        _ = prev := List.map_id prev
    rw [hprev]
    rw [applyBatch_singleton]
    have hmem : t.id ∈ (prev ++ [t]).map ToolCard.id := by simp
    rw [if_pos hmem]
    rw [List.map_append, hprev]
    simp

theorem applyBatch_ids_nodup {α : Type} [DecidableEq α] (batch prev : List (ToolCard α))
    (hb : (batch.map ToolCard.id).Nodup) (hp : (prev.map ToolCard.id).Nodup) :
    ((applyBatch batch prev).map ToolCard.id).Nodup := by
  rw [applyBatch_ids]
  refine List.Nodup.append hp ?_ ?_
  · exact ((List.filter_sublist batch).map ToolCard.id).nodup hb
  · intro a ha hafil
    obtain ⟨x, hx, hxid⟩ := List.mem_map.mp hafil
    have := List.mem_filter.mp hx
    have hnot : x.id ∉ prev.map ToolCard.id := by simpa using this.2
    exact hnot (hxid ▸ ha)

theorem exists_card_of_mem_batch {α : Type} [DecidableEq α] (batch prev : List (ToolCard α))
    (t : ToolCard α) (ht : t ∈ batch) :
    ∃ c ∈ applyBatch batch prev, c.id = t.id := by
  by_cases h : t.id ∈ prev.map ToolCard.id
  · obtain ⟨c0, hc0, hc0id⟩ := List.mem_map.mp h
    refine ⟨(batch.find? (fun x => x.id == c0.id)).getD c0, ?_, ?_⟩
    · show _ ∈ applyBatch batch prev
      unfold applyBatch
      exact List.mem_append_left _ (List.mem_map_of_mem _ hc0)
    · rw [find_getD_id]
      exact hc0id
  · refine ⟨t, ?_, rfl⟩
    show t ∈ applyBatch batch prev
    unfold applyBatch
    refine List.mem_append_right _ ?_
    refine List.mem_filter.mpr ⟨ht, ?_⟩
    simpa using h

/-- C5 counterexample: the same `{callId: "call-1", state: executing}`
update delivered twice within one processing batch (as happens when the
duplicate appears twice in the reprocessed message stream) leaves two
observable cards with the same callId, not one. -/
theorem duplicate_executing_update_two_cards_cex :
    (applyBatch [toToolCard execInv, toToolCard execInv]
        ([] : List (ToolCard String))).map ToolCard.id = ["call-1", "call-1"] ∧
    (applyBatch [toToolCard execInv, toToolCard execInv]
        ([] : List (ToolCard String))).length = 2 := by
  exact ⟨by decide, by decide⟩

/-- C5 amended: re-delivering the same update in a later batch is an
idempotent replacement keyed by callId (one card, unchanged state), and
at most one card per callId holds provided every batch's updates carry
distinct callIds — a single batch with the same new callId twice appends
one card per occurrence. -/
theorem card_update_idempotent_and_nodup {α : Type} [DecidableEq α] (t : ToolCard α)
    (batch prev : List (ToolCard α)) (hb : (batch.map ToolCard.id).Nodup)
    (hp : (prev.map ToolCard.id).Nodup) :
    applyBatch [t] (applyBatch [t] prev) = applyBatch [t] prev ∧
    ((applyBatch batch prev).map ToolCard.id).Nodup :=
  ⟨applyBatch_singleton_idem t prev, applyBatch_ids_nodup batch prev hb hp⟩

theorem card_update_idempotent_and_nodup_witness :
    (([toToolCard execInv].map ToolCard.id).Nodup ∧
      (([] : List (ToolCard String)).map ToolCard.id).Nodup) ∧
    (applyBatch [toToolCard execInv] (applyBatch [toToolCard execInv] []) =
        applyBatch [toToolCard execInv] ([] : List (ToolCard String)) ∧
      ((applyBatch [toToolCard execInv] ([] : List (ToolCard String))).map ToolCard.id).Nodup) :=
  ⟨⟨by decide, by decide⟩,
    card_update_idempotent_and_nodup (toToolCard execInv) [toToolCard execInv] []
      (by decide) (by decide)⟩

/-- C6 counterexample: the tool id `ask_user_confirmation` is not in the
loaded catalogue (which declares only
`ask_user_question_confirmation_approval_input`, `display_product_card`,
`display_tool_info` and `change_background_color`), so it lies inside the
claim's quantifier — yet a pending invocation carrying it is routed to the
`ConfirmationModal`, not to the generic unknown-tool treatment, refuting
the claim that every non-catalogue invocation gets the generic display. -/
theorem modal_name_not_in_catalogue_cex :
    modalInv.toolName ∉ catalogueToolNames ∧
    modalInv ∈ pendingToolInvocations modalMsgs ∧
    renderPendingInvocation 0 modalInv = .confirmationModal modalInv ∧
    renderPendingInvocation 0 modalInv ≠ .emptyFragment 0 := by
  exact ⟨by decide, by decide, by decide, by decide⟩

/-- C6 amended: a pending invocation whose tool id is not in the loaded
catalogue and is not the special-cased `ask_user_confirmation` name (the
one non-catalogue tool id the dispatcher routes to the confirmation modal
instead — see the counterexample) still gets a visible generic
tool-execution card keyed by its callId in the processed card state, its
pending-section slot renders as the (non-throwing) empty fragment rather
than a modal, and the pending renderer emits one node per invocation
(nothing is dropped). -/
theorem unknown_tool_generic_display {α : Type} [DecidableEq α] (msgs : List (Msg α))
    (cards : List (ToolCard α)) (inv : Invocation α)
    (hp : inv ∈ pendingToolInvocations msgs)
    (hcat : inv.toolName ∉ catalogueToolNames)
    (hmodal : inv.toolName ≠ "ask_user_confirmation") :
    (∃ c ∈ processMessages msgs cards, c.id = inv.toolCallId) ∧
    (∀ k, renderPendingInvocation k inv = .emptyFragment k) ∧
    (renderPendingList (pendingToolInvocations msgs)).length =
      (pendingToolInvocations msgs).length := by
  refine ⟨?_, ?_, ?_⟩
  · cases hlast : msgs.getLast? with
    | none =>
      simp only [pendingToolInvocations, hlast] at hp
      cases hp
    | some m =>
      simp only [pendingToolInvocations, hlast] at hp
      by_cases hrole : m.role = "assistant"
      · rw [if_pos hrole] at hp
        have hinv : inv ∈ partInvocations m := (List.mem_filter.mp hp).1
        have hpne : partInvocations m ≠ [] := List.ne_nil_of_mem hinv
        have hmem : m ∈ msgs := by
          have h1 : m ∈ msgs.getLast? := by rw [hlast]; rfl
          obtain ⟨hne, heq⟩ := List.mem_getLast?_eq_getLast h1
          rw [heq]
          exact List.getLast_mem hne
        have hbatch : toToolCard inv ∈ extractToolBatch msgs := by
          unfold extractToolBatch
          apply List.mem_flatMap.mpr
          refine ⟨m, ?_, ?_⟩
          · apply List.mem_filter.mpr
            refine ⟨hmem, ?_⟩
            simp [hrole, List.isEmpty_iff, hpne]
          · rw [if_neg (by simpa [List.isEmpty_iff] using hpne)]
            exact List.mem_map_of_mem toToolCard hinv
        have hbne : extractToolBatch msgs ≠ [] := List.ne_nil_of_mem hbatch
        unfold processMessages
        rw [if_neg (by simpa [List.isEmpty_iff] using hbne)]
        exact exists_card_of_mem_batch (extractToolBatch msgs) cards (toToolCard inv) hbatch
      · rw [if_neg hrole] at hp
        cases hp
  · intro k
    unfold renderPendingInvocation
    rw [if_neg hmodal]
  · unfold renderPendingList
    rw [List.length_map, List.enum_length]

theorem unknown_tool_generic_display_witness :
    (unknownInv ∈ pendingToolInvocations unknownMsgs ∧
      unknownInv.toolName ∉ catalogueToolNames ∧
      unknownInv.toolName ≠ "ask_user_confirmation") ∧
    ((∃ c ∈ processMessages unknownMsgs ([] : List (ToolCard String)),
        c.id = unknownInv.toolCallId) ∧
      (renderPendingInvocation 0 unknownInv = .emptyFragment 0) ∧
      (renderPendingList (pendingToolInvocations unknownMsgs)).length =
        (pendingToolInvocations unknownMsgs).length) :=
  ⟨⟨by decide, by decide, by decide⟩,
    (unknown_tool_generic_display unknownMsgs [] unknownInv (by decide) (by decide)
        (by decide)).1,
    (unknown_tool_generic_display unknownMsgs [] unknownInv (by decide) (by decide)
        (by decide)).2.1 0,
    (unknown_tool_generic_display unknownMsgs [] unknownInv (by decide) (by decide)
        (by decide)).2.2⟩

theorem getLast?_map_eq {α β : Type} (f : α → β) (l : List α) :
    (l.map f).getLast? = (l.getLast?).map f := by
  induction l with
  | nil => rfl
  | cons x xs ih =>
    cases xs with
    | nil => rfl
    | cons y ys =>
      simpa [List.getLast?_cons_cons] using ih

theorem pending_after_result {α : Type} [DecidableEq α] (msgs : List (Msg α))
    (callId : String) (res : α) (inv : Invocation α)
    (hinv : inv ∈ pendingToolInvocations (applyToolResult msgs callId res)) :
    inv.toolCallId ≠ callId := by
  unfold applyToolResult at hinv
  cases hlast : msgs.getLast? with
  | none =>
    simp only [pendingToolInvocations, getLast?_map_eq, hlast, Option.map_none'] at hinv
    cases hinv
  | some m =>
    simp only [pendingToolInvocations, getLast?_map_eq, hlast, Option.map_some'] at hinv
    by_cases hrole : m.role = "assistant"
    · rw [if_pos hrole] at hinv
      have h1 := List.mem_filter.mp hinv
      have hstate : inv.state = InvState.call := by simpa using h1.2
      have h2 := h1.1
      simp only [partInvocations, List.filterMap_map] at h2
      obtain ⟨p, hpmem, hpeq⟩ := List.mem_filterMap.mp h2
      cases p with
      | text s => simp at hpeq
      | toolInv i =>
        by_cases hid : i.toolCallId = callId
        · have h4 : ({ i with state := InvState.result, result := some res } : Invocation α)
              = inv := by
            have := hpeq
            simp only [Function.comp_apply, if_pos hid] at this
            exact Option.some.inj this
          rw [← h4] at hstate
          exact absurd hstate (by simp)
        · have h4 : i = inv := by
            have := hpeq
            simp only [Function.comp_apply, if_neg hid] at this
            exact Option.some.inj this
          rw [← h4]
          exact hid
    · rw [if_neg hrole] at hinv
      cases hinv

/-- C7: clicking a confirmation button routes a strict-boolean-`false`
value to the cancel handler and every other literal to the confirm
handler; either way exactly one `{toolCallId, result: {confirmed: value}}`
message is sent; and once the transport applies that result, no pending
invocation with that callId remains, so the prompt (rendered only for
`state = call` invocations of the last message) is removed. -/
theorem confirmation_click_semantics (callId : String) (v : LitValue)
    (msgs : List (Msg ConfirmedResult)) :
    ((handleButtonClick callId v).1 = .cancelRoute ↔ v = .boolean false) ∧
    (handleButtonClick callId v).2 = [⟨callId, ⟨v⟩⟩] ∧
    (∀ inv ∈ pendingToolInvocations (applyToolResult msgs callId ⟨v⟩),
      inv.toolCallId ≠ callId) := by
  refine ⟨?_, ?_, ?_⟩
  · unfold handleButtonClick
    by_cases h : v = .boolean false <;> simp [h]
  · unfold handleButtonClick
    by_cases h : v = .boolean false <;> simp [h]
  · intro inv hinv
    exact pending_after_result msgs callId ⟨v⟩ inv hinv

theorem confirmation_click_semantics_witness :
    (handleButtonClick "call-7" (.boolean false)).1 = .cancelRoute ∧
    (handleButtonClick "call-7" (.boolean false)).2 =
      [⟨"call-7", ⟨.boolean false⟩⟩] ∧
    (handleButtonClick "call-7" (.boolean true)).1 ≠ .cancelRoute ∧
    (handleButtonClick "call-7" (.boolean true)).2 =
      [⟨"call-7", ⟨.boolean true⟩⟩] :=
  ⟨(confirmation_click_semantics "call-7" (.boolean false) []).1.mpr rfl,
   (confirmation_click_semantics "call-7" (.boolean false) []).2.1,
   fun hc =>
     (by decide : LitValue.boolean true ≠ LitValue.boolean false)
       ((confirmation_click_semantics "call-7" (.boolean true) []).1.mp hc),
   (confirmation_click_semantics "call-7" (.boolean true) []).2.1⟩

end VercelAgno
